import Mathlib

/-!
# Verification of the nd-super-nodes backend pipeline

Shallow embedding of the configuration-normalization → trigger-resolution →
prompt-composition pipeline of the `nd-super-nodes` repository
(`backend/lora_utils.py`, `backend/super_lora_node.py`,
`backend/nd_super_prompt_node.py`, `backend/prompt_manager.py`),
together with theorems settling the specification claims.

Python floats are modelled as rationals (`Rat`), Python dictionaries as
insertion-ordered association lists, file-system and host services
(`folder_paths`, `os.path.exists`, the CivitAI client, safetensors metadata
reading, `json.loads`) as explicit parameters of the embedded functions.
-/

namespace NdSuperNodes

/-! ## Python scalar values

The scalar values that can appear in a LoRA configuration dict
(strings, numbers, booleans, `None`).  Python `float` is modelled by `Rat`. -/

inductive PyVal where
  | none
  | bool (b : Bool)
  | num (q : Rat)
  | str (s : String)
  deriving DecidableEq, Repr

/-- Python truthiness for the scalar values above:
`None`, `False`, `0`, and `""` are falsy, everything else truthy. -/
def PyVal.truthy : PyVal → Bool
  | .none => false
  | .bool b => b
  | .num q => q ≠ 0
  | .str s => s ≠ ""

/-! ## String primitives

The built-in `String` functions (`startsWith`, `toLower`, `trim`, …) are
implemented over byte positions and do not reduce inside the kernel, so the
Python string operations used by the source are modelled here directly over
the character list `String.data`.  Strings in the repository's data are
ASCII, so case conversion and whitespace tests are modelled on ASCII. -/

/-- ASCII lower-casing of one character (model of Python `str.lower`). -/
def lowerChar (c : Char) : Char :=
  if 'A' ≤ c && c ≤ 'Z' then Char.ofNat (c.toNat + 32) else c

/-- Python `str.lower` (ASCII model). -/
def pyLower (s : String) : String := ⟨s.data.map lowerChar⟩

/-- Python `s.startswith t`. -/
def pyStartsWith (s t : String) : Bool := t.data.isPrefixOf s.data

/-- Python `s.endswith t`. -/
def pyEndsWith (s t : String) : Bool := t.data.reverse.isPrefixOf s.data.reverse

/-- Python whitespace test used by `str.strip` / `str.split` (ASCII model). -/
def isPySpace (c : Char) : Bool :=
  c = ' ' || c = '\t' || c = '\n' || c = '\r' || c = '\x0b' || c = '\x0c'

/-- Python `str.strip` with no argument: remove leading and trailing
whitespace. -/
def pyStrip (s : String) : String :=
  ⟨((s.data.dropWhile isPySpace).reverse.dropWhile isPySpace).reverse⟩

/-! ## POSIX path primitives (`os.path`) -/

/-- Python `os.path.isabs` on POSIX: the path starts with a slash. -/
def isAbsPath (p : String) : Bool := pyStartsWith p "/"

/-- Python `os.path.join a b` on POSIX (binary form, as used in the source):
an absolute second component discards the first; otherwise the two parts are
glued with a single slash. -/
def pathJoin (a b : String) : String :=
  if isAbsPath b then b
  else if a = "" then b
  else if pyEndsWith a "/" then a ++ b
  else a ++ "/" ++ b

/-! ## Host environment for `lora_utils.py`

`folder_paths` is ComfyUI's catalogue service; `os.path.exists` is the
file-system existence test.  Both are inputs of the resolution functions,
so they are fields of an explicit environment record. -/

structure FsEnv where
  /-- `COMFYUI_AVAILABLE and folder_paths is not None` in the source. -/
  comfyAvailable : Bool
  /-- `folder_paths.get_folder_paths("loras")`: the ordered search roots. -/
  loraDirs : List String
  /-- `folder_paths.get_filename_list("loras")`: relative names of known files. -/
  filenameList : List String
  /-- `os.path.exists`. -/
  pathExists : String → Bool

/-! ## `lora_utils._resolve_lora_full_path` (lines 55–83)

Direct translation of the source.  Note that after the absolute-path check
the function joins the identifier with `lora_dirs[0]` only, and the
case-insensitive fallback loop also joins each catalogue name with
`lora_dirs[0]` only. -/

/-- The case-insensitive fallback loop (lines 74–81 of `lora_utils.py`):
scan the catalogue for a name equal to the identifier up to case, join it
with the first search root, and return it when that path exists. -/
def resolveCaseLoop (env : FsEnv) (dir0 identLower : String) :
    List String → Option String
  | [] => Option.none
  | rel :: rest =>
    if pyLower rel = identLower then
      let candidate := pathJoin dir0 rel
      if env.pathExists candidate then some candidate
      else resolveCaseLoop env dir0 identLower rest
    else resolveCaseLoop env dir0 identLower rest

/-- `lora_utils._resolve_lora_full_path` (lines 55–83): resolve a LoRA
identifier (filename or absolute path) to an absolute path. -/
def resolve_lora_full_path (env : FsEnv) (loraIdentifier : String) :
    Option String :=
  if isAbsPath loraIdentifier && env.pathExists loraIdentifier then
    some loraIdentifier
  else if !env.comfyAvailable then Option.none
  else
    match env.loraDirs with
    | [] => Option.none
    | dir0 :: _ =>
      let fullPath := pathJoin dir0 loraIdentifier
      if env.pathExists fullPath then some fullPath
      else resolveCaseLoop env dir0 (pyLower loraIdentifier) env.filenameList

/-! ## The resolver of the specification (§4.1)

Modelled from the spec: if the identifier is an absolute path that exists,
return it unchanged; otherwise join the identifier with each search root in
order and return the first joined path that exists; failing that, match the
identifier case-insensitively against the catalogue and re-join the matched
name with each search root until a file exists. -/

/-- First joined path that exists, over the ordered search roots. -/
def specFirstHit (env : FsEnv) (ident : String) : List String → Option String
  | [] => Option.none
  | root :: rest =>
    let p := pathJoin root ident
    if env.pathExists p then some p else specFirstHit env ident rest

/-- Case-insensitive catalogue pass of the spec resolver: on a match,
re-join with each search root until a file exists. -/
def specCasePass (env : FsEnv) (identLower : String) :
    List String → Option String
  | [] => Option.none
  | rel :: rest =>
    if pyLower rel = identLower then
      match specFirstHit env rel env.loraDirs with
      | some p => some p
      | Option.none => specCasePass env identLower rest
    else specCasePass env identLower rest

/-- The identifier-resolution algorithm as described by spec §4.1. -/
def spec_resolve (env : FsEnv) (ident : String) : Option String :=
  if isAbsPath ident && env.pathExists ident then some ident
  else
    match specFirstHit env ident env.loraDirs with
    | some p => some p
    | Option.none => specCasePass env (pyLower ident) env.filenameList

/-- The scenario of `tests/test_lora_utils.py::test_resolve_uses_extra_directory`:
two search roots, the file present only under the second one. -/
def c1Env : FsEnv :=
  { comfyAvailable := true
    loraDirs := ["/default", "/extra"]
    filenameList := ["Qwen/anime/MysticAnime.safetensors"]
    pathExists := fun p => p = "/extra/Qwen/anime/MysticAnime.safetensors" }

/-! ## `super_lora_node.SuperLoraLoader.load_loras` (lines 145–230)

The per-configuration loop of `load_loras`, processing the extracted
`lora_configs` list.  A configuration dict is an insertion-ordered
association list of scalar values.  The kwargs-to-config extraction of
lines 87–143 is the identity on batches already supplied in the structured
shape and is not modelled. -/

/-- One raw LoRA configuration dict. -/
abbrev Config := List (String × PyVal)

/-- Python `dict.get key default` on a configuration dict. -/
def cfgGet (c : Config) (k : String) (d : PyVal) : PyVal :=
  match c.lookup k with
  | some v => v
  | Option.none => d

/-- Python `a or b` on scalar values: `a` when truthy, else `b`. -/
def pyOr (a b : PyVal) : PyVal := if a.truthy then a else b

/-- Line 157: `config.get('lora', 'None') or config.get('file') or
config.get('name') or 'None'`. -/
def loraNameOf (c : Config) : PyVal :=
  pyOr (cfgGet c "lora" (.str "None"))
    (pyOr (cfgGet c "file" .none) (pyOr (cfgGet c "name" .none) (.str "None")))

/-- Line 158: `config.get('enabled', True) if config.get('enabled') is not
None else bool(config.get('on', True))`; the loop only consumes its
truthiness (line 179). -/
def enabledOf (c : Config) : Bool :=
  if cfgGet c "enabled" .none ≠ PyVal.none then (cfgGet c "enabled" (.bool true)).truthy
  else (cfgGet c "on" (.bool true)).truthy

/-- Digits-to-number helper for the decimal parser. -/
def natOfDigits (ds : List Char) : Nat :=
  ds.foldl (fun n c => n * 10 + (c.toNat - 48)) 0

/-- Python `float(str)` on a decimal literal: optional surrounding
whitespace, optional sign, digits with at most one decimal point
(scientific notation and the special values are outside the model);
`Option.none` models the `ValueError`. -/
def pyFloatOfString (s : String) : Option Rat :=
  let cs := ((s.data.dropWhile isPySpace).reverse.dropWhile isPySpace).reverse
  let signed : Int × List Char :=
    match cs with
    | '+' :: t => (1, t)
    | '-' :: t => (-1, t)
    | t => (1, t)
  let intDigits := signed.2.takeWhile Char.isDigit
  let rest := signed.2.dropWhile Char.isDigit
  match rest with
  | [] =>
    if intDigits = [] then Option.none
    else some (mkRat (signed.1 * natOfDigits intDigits) 1)
  | '.' :: frac =>
    if frac.all Char.isDigit ∧ (intDigits ≠ [] ∨ frac ≠ []) then
      some (mkRat
        (signed.1 * (natOfDigits intDigits * 10 ^ frac.length + natOfDigits frac))
        (10 ^ frac.length))
    else Option.none
  | _ => Option.none

/-- Python `float(x)` on a scalar value; `Option.none` models the raised
`ValueError`/`TypeError`. -/
def pyFloat : PyVal → Option Rat
  | .num q => some q
  | .bool b => some (if b then 1 else 0)
  | .str s => pyFloatOfString s
  | .none => Option.none

/-- Lines 161–164: the raw primary-strength value
(`strength_model`, falling back to `strength`). -/
def strengthModelValOf (c : Config) : PyVal :=
  if cfgGet c "strength_model" .none ≠ PyVal.none then cfgGet c "strength_model" .none
  else cfgGet c "strength" .none

/-- Lines 165–168: the raw secondary-strength value
(`strength_clip`, then `strengthClip`, then `strength`). -/
def strengthClipValOf (c : Config) : PyVal :=
  if cfgGet c "strength_clip" .none ≠ PyVal.none then cfgGet c "strength_clip" .none
  else if cfgGet c "strengthClip" .none ≠ PyVal.none then cfgGet c "strengthClip" .none
  else cfgGet c "strength" .none

/-- Lines 169–170: `float(...)` coercion of the two strengths, with the
`1.0` / primary-strength defaults for absent values.  `Option.none` models
the exception raised by `float` — note that in the source these two lines
sit *outside* the `try` block of line 186. -/
def coerceStrengths (c : Config) : Option (Rat × Rat) :=
  match strengthModelValOf c with
  | PyVal.none =>
    match strengthClipValOf c with
    | PyVal.none => some (1, 1)
    | v =>
      match pyFloat v with
      | some sc => some (1, sc)
      | Option.none => Option.none
  | v =>
    match pyFloat v with
    | some sm =>
      match strengthClipValOf c with
      | PyVal.none => some (sm, sm)
      | w =>
        match pyFloat w with
        | some sc => some (sm, sc)
        | Option.none => Option.none
    | Option.none => Option.none

/-- Python `str(x)` on a scalar value (the numeric rendering is
approximated; it is never exercised by the claims). -/
def pyStr : PyVal → String
  | .none => "None"
  | .bool b => if b then "True" else "False"
  | .num q => toString q
  | .str s => s

/-- Lines 173–176: the explicit trigger phrase of a config
(`trigger_word`, falling back to `triggerWords`), via `str(tw or '').strip()`. -/
def triggerWordOf (c : Config) : String :=
  let tw0 := cfgGet c "trigger_word" .none
  let tw := if tw0 = PyVal.none then cfgGet c "triggerWords" (.str "") else tw0
  pyStrip (pyStr (pyOr tw (.str "")))

/-- Host services consumed by `load_loras`: the weight-application host
(`LoraLoader().load_lora`), the catalogue lookup (`get_lora_by_filename`),
metadata extraction (`extract_trigger_words`) and the CivitAI client
(`get_civitai_service().get_trigger_words_sync`, absent when
`get_civitai_service` failed). -/
structure LoraHost (M C : Type) where
  loadLora : M → Option C → String → Rat → Rat → M × Option C
  getLoraByFilename : PyVal → Option String
  extractTriggerWords : String → List String
  civitai : Option (PyVal → List String)

/-- The evolving state of the loop: the model/clip handles, the collected
trigger words, and a trace of the weight applications performed (one
`(lora_path, strength_model, strength_clip)` record per
`LoraLoader().load_lora` call), recorded to state side-effect claims. -/
structure LoadState (M C : Type) where
  model : Option M
  clip : Option C
  triggerWords : List String
  applied : List (String × Rat × Rat)

/-- Lines 199–215: ensure a trigger word — keep a non-blank explicit
phrase; otherwise take the first metadata candidate, stripped; otherwise,
when the CivitAI client exists, the first remote candidate, stripped. -/
def ensureTriggerWord {M C : Type} (host : LoraHost M C) (loraName : PyVal)
    (loraPath : String) (explicit : String) : String :=
  if explicit ≠ "" then explicit
  else
    match host.extractTriggerWords loraPath with
    | w :: _ => pyStrip w
    | [] =>
      match host.civitai with
      | some fetch =>
        match fetch loraName with
        | w :: _ => pyStrip w
        | [] => ""
      | Option.none => ""

/-- Lines 178–225, the part of one loop iteration after the strength
coercion succeeded: the skip guards, then the `try` block that loads the
LoRA and collects a trigger word (every exception inside that block is
caught at line 223, so the block is modelled as total). -/
def applyConfig {M C : Type} (host : LoraHost M C) (st : LoadState M C)
    (config : Config) (sm sc : Rat) : LoadState M C :=
  let loraName := loraNameOf config
  if ¬ enabledOf config ∨ loraName = PyVal.str "None" ∨ ¬ loraName.truthy then st
  else if sm = 0 then st
  else
    match st.model with
    | Option.none => st
    | some m =>
      match host.getLoraByFilename loraName with
      | Option.none => st
      | some loraPath =>
        if loraPath = "" then st
        else
          let mc := host.loadLora m st.clip loraPath sm sc
          let tw := ensureTriggerWord host loraName loraPath (triggerWordOf config)
          { model := some mc.1, clip := mc.2,
            triggerWords := st.triggerWords ++ (if tw ≠ "" then [tw] else []),
            applied := st.applied ++ [(loraPath, sm, sc)] }

/-- The `for i, config in enumerate(lora_configs)` loop (lines 155–225).
`Except.error` models the uncaught exception raised by the `float`
coercion of lines 169–170. -/
def runConfigs {M C : Type} (host : LoraHost M C) :
    LoadState M C → List Config → Except Unit (LoadState M C)
  | st, [] => Except.ok st
  | st, c :: rest =>
    match coerceStrengths c with
    | Option.none => Except.error ()
    | some s => runConfigs host (applyConfig host st c s.1 s.2) rest

/-- Python `sep.join ws`. -/
def pyJoin (sep : String) : List String → String
  | [] => ""
  | w :: ws => ws.foldl (fun acc x => acc ++ sep ++ x) w

/-- `SuperLoraLoader.load_loras` on an extracted configuration batch:
run the loop, then the final comma-join of line 228. -/
def load_loras {M C : Type} (host : LoraHost M C) (model : Option M)
    (clip : Option C) (loraConfigs : List Config) :
    Except Unit (Option M × Option C × String) :=
  match runConfigs host
      { model := model, clip := clip, triggerWords := [], applied := [] }
      loraConfigs with
  | Except.error e => Except.error e
  | Except.ok st =>
    Except.ok (st.model, st.clip,
      if st.triggerWords ≠ [] then pyJoin ", " st.triggerWords else "")

/-- The trigger phrase one configuration contributes under the spec §4.5
fallback chain, given the same host services: nothing when the entry is
inert or its identifier does not resolve; otherwise the non-blank explicit
phrase, else the first metadata candidate, else the first remote candidate,
else nothing. -/
def entryPhrase {M C : Type} (host : LoraHost M C) (c : Config) : Option String :=
  match coerceStrengths c with
  | Option.none => Option.none
  | some s =>
    if ¬ enabledOf c ∨ loraNameOf c = PyVal.str "None" ∨ ¬ (loraNameOf c).truthy then
      Option.none
    else if s.1 = 0 then Option.none
    else
      match host.getLoraByFilename (loraNameOf c) with
      | Option.none => Option.none
      | some p =>
        if p = "" then Option.none
        else
          let tw := ensureTriggerWord host (loraNameOf c) p (triggerWordOf c)
          if tw ≠ "" then some tw else Option.none

/-! ## `nd_super_prompt_node.NdSuperPromptBuilder`

Typed model of one prompt segment (spec §3 PromptSegment): the loop of
lines 83–105 reads the keys `enabled`, `type`, `text`, `weight`,
`variables` with these defaults.  The bundle-JSON parsing of
`_parse_bundle` is an explicit parameter of the builder. -/

structure Segment where
  enabled : Bool := true
  /-- The `type` key: "positive", "negative" or "custom". -/
  kind : String := "positive"
  text : String := ""
  weight : Rat := 1
  /-- The `variables` key: segment-local variable overrides. -/
  vars : List (String × String) := []

/-- Python dict assignment `d[k] = v` on an insertion-ordered association
list: replace the value in place when the key exists, else append. -/
def dictSet {α : Type} (d : List (String × α)) (k : String) (v : α) :
    List (String × α) :=
  match d with
  | [] => [(k, v)]
  | (k', v') :: rest => if k' = k then (k, v) :: rest else (k', v') :: dictSet rest k v

/-- Python `s.split(sep)` for a one-character separator (keeps empty parts). -/
def splitCharAux (sep : Char) : List Char → List Char → List String
  | [], acc => [⟨acc.reverse⟩]
  | c :: rest, acc =>
    if c = sep then ⟨acc.reverse⟩ :: splitCharAux sep rest []
    else splitCharAux sep rest (c :: acc)

/-- Python `s.split(sep)` for a one-character separator. -/
def pySplitChar (sep : Char) (s : String) : List String :=
  splitCharAux sep s.data []

/-- Python `s.split()` with no argument: split on whitespace runs, dropping
empty parts. -/
def splitWsAux : List Char → List Char → List String
  | [], acc => if acc = [] then [] else [⟨acc.reverse⟩]
  | c :: rest, acc =>
    if isPySpace c then
      if acc = [] then splitWsAux rest [] else ⟨acc.reverse⟩ :: splitWsAux rest []
    else splitWsAux rest (c :: acc)

/-- Python `s.split()` with no argument. -/
def pySplitWs (s : String) : List String := splitWsAux s.data []

/-- Python `str.isalnum` (ASCII model): non-empty and all alphanumeric. -/
def pyIsAlnum (s : String) : Bool := s ≠ "" && s.data.all Char.isAlphanum

/-- `_build_variable_context`, trigger loop (lines 142–148): indexed
variables `trigger.{i}`, plus a lowercased-first-word alias when the first
word is alphanumeric. -/
def addTriggers (vars : List (String × String)) :
    List String → Nat → List (String × String)
  | [], _ => vars
  | t :: rest, i =>
    let vars1 := dictSet vars ("trigger." ++ toString i) t
    let fw := (pySplitWs t).headD ""
    let vars2 :=
      if fw ≠ "" ∧ pyIsAlnum fw then dictSet vars1 ("trigger." ++ pyLower fw) t
      else vars1
    addTriggers vars2 rest (i + 1)

/-- `NdSuperPromptBuilder._build_variable_context` (lines 134–159). -/
def buildVariableContext (triggerWords : String) (segments : List Segment) :
    List (String × String) :=
  let vars0 : List (String × String) := []
  let vars1 :=
    if triggerWords ≠ "" then
      let triggers := ((pySplitChar ',' triggerWords).map pyStrip).filter (· ≠ "")
      let vars := addTriggers vars0 triggers 1
      dictSet vars "trigger.all" (pyJoin ", " triggers)
    else vars0
  segments.foldl
    (fun vs seg => seg.vars.foldl (fun a kv => dictSet a kv.1 kv.2) vs) vars1

/-! ### Variable substitution (`_substitute_variables`, lines 161–185)

The three regular expressions of the source differ only in their
delimiters around a variable name matching `\w+(\.\w+)*`.  A pass of
`re.finditer` over a string followed by replacing the matches from
rightmost to leftmost is one left-to-right scan that finds the
non-overlapping matches in order, emits the variable's value for a bound
name, keeps the matched text verbatim for an unbound name, and resumes
scanning right after each match.  The scan is implemented with a fuel
argument (initialised to the string length, which the scan never exceeds)
so that it is structurally recursive. -/

/-- Python `\w` (ASCII model). -/
def isWordChar (c : Char) : Bool := c.isAlphanum || c = '_'

/-- Greedy `(\.\w+)*` continuation over a run of word/dot characters. -/
def takeDotGroups : List (List Char) → List Char
  | [] => []
  | g :: gs => if g = [] then [] else '.' :: g ++ takeDotGroups gs

/-- The maximal prefix of a word/dot-character run matching `\w+(\.\w+)*`. -/
def dottedName (run : List Char) : List Char :=
  match splitCharAux '.' run [] with
  | [] => []
  | g0 :: gs => if (g0.data : List Char) = [] then [] else g0.data ++ takeDotGroups (gs.map String.data)

/-- The three delimiter syntaxes of line 172–176. -/
inductive BraceSyn where
  | double
  | dollar
  | single

/-- Try to match one syntax at the head of the character list, returning
the variable name; the total match length is the name length plus the
delimiter length. -/
def matchSyn : BraceSyn → List Char → Option (List Char)
  | .double, '{' :: '{' :: t =>
    let nm := dottedName (t.takeWhile fun c => isWordChar c || c = '.')
    if nm = [] then Option.none
    else
      match t.drop nm.length with
      | '}' :: '}' :: _ => some nm
      | _ => Option.none
  | .dollar, '$' :: '{' :: t =>
    let nm := dottedName (t.takeWhile fun c => isWordChar c || c = '.')
    if nm = [] then Option.none
    else
      match t.drop nm.length with
      | '}' :: _ => some nm
      | _ => Option.none
  | .single, '{' :: t =>
    let nm := dottedName (t.takeWhile fun c => isWordChar c || c = '.')
    if nm = [] then Option.none
    else
      match t.drop nm.length with
      | '}' :: _ => some nm
      | _ => Option.none
  | _, _ => Option.none

/-- Total length of a match of the given syntax with the given name length. -/
def synLen : BraceSyn → Nat → Nat
  | .double, n => n + 4
  | .dollar, n => n + 3
  | .single, n => n + 2

/-- One `finditer`-and-replace pass of one syntax (fuelled scan). -/
def passScanAux (vars : List (String × String)) (syn : BraceSyn) :
    Nat → List Char → List Char
  | 0, cs => cs
  | fuel + 1, cs =>
    match cs with
    | [] => []
    | c :: rest =>
      match matchSyn syn cs with
      | some nm =>
        let len := synLen syn nm.length
        match List.lookup (⟨nm⟩ : String) vars with
        | some v => v.data ++ passScanAux vars syn fuel (cs.drop len)
        | Option.none => cs.take len ++ passScanAux vars syn fuel (cs.drop len)
      | Option.none => c :: passScanAux vars syn fuel rest

/-- One substitution pass of one syntax over a character list. -/
def passScan (vars : List (String × String)) (syn : BraceSyn) (cs : List Char) :
    List Char :=
  passScanAux vars syn cs.length cs

/-- The variable names found by `re.finditer` of one syntax over a string,
in match order (bound or not). -/
def passNamesAux (syn : BraceSyn) : Nat → List Char → List String
  | 0, _ => []
  | fuel + 1, cs =>
    match cs with
    | [] => []
    | _ :: rest =>
      match matchSyn syn cs with
      | some nm =>
        (⟨nm⟩ : String) :: passNamesAux syn fuel (cs.drop (synLen syn nm.length))
      | Option.none => passNamesAux syn fuel rest

/-- The variable names matched by one syntax over a string. -/
def passNames (syn : BraceSyn) (cs : List Char) : List String :=
  passNamesAux syn cs.length cs

/-- `NdSuperPromptBuilder._substitute_variables` (lines 161–185): return
the text unchanged for an empty context (line 167), else run the
double-brace pass, then the dollar-brace pass on its output, then the
single-brace pass on that output (each `re.finditer` call of line 179
scans the current `result`). -/
def substituteVariables (vars : List (String × String)) (text : String) : String :=
  if vars = [] then text
  else ⟨passScan vars .single (passScan vars .dollar (passScan vars .double text.data))⟩

/-! ### Prompt assembly (`build_prompt`, lines 53–116) -/

/-- Round the fraction `a / b` (with `b > 0`) half to even, as Python
string formatting does on exact halves. -/
def roundHalfEvenFrac (a b : Int) : Int :=
  let f := Int.fdiv a b
  let r := a - b * f
  if 2 * r < b then f
  else if b < 2 * r then f + 1
  else if f % 2 = 0 then f else f + 1

/-- Python `f"{w:.2f}"`: fixed-point rendering with two decimals (an exact
negative zero is rendered without sign in this model). -/
def formatF2 (q : Rat) : String :=
  let n := roundHalfEvenFrac (q.num * 100) (q.den : Int)
  let m := n.natAbs
  (if n < 0 then "-" else "") ++ toString (m / 100) ++ "." ++
    (if m % 100 < 10 then "0" ++ toString (m % 100) else toString (m % 100))

/-- One iteration of the per-segment loop (lines 83–105): skip disabled or
blank segments, substitute variables, wrap with the weight when it is not
1.0, and route to the positive or negative accumulator. -/
def segStep (vars : List (String × String)) (acc : List String × List String)
    (seg : Segment) : List String × List String :=
  if ¬ seg.enabled then acc
  else
    let text := pyStrip seg.text
    if text = "" then acc
    else
      let processed := substituteVariables vars text
      let processed :=
        if seg.weight ≠ 1 then
          "(" ++ processed ++ ":" ++ formatF2 seg.weight ++ ")"
        else processed
      if seg.kind = "negative" then (acc.1, acc.2 ++ [processed])
      else (acc.1 ++ [processed], acc.2)

/-- The per-segment loop of lines 83–105, threading the two accumulator
lists `positive_parts` and `negative_parts`. -/
def segmentParts (vars : List (String × String)) (segments : List Segment) :
    List String × List String :=
  segments.foldl (segStep vars) ([], [])

/-- `NdSuperPromptBuilder.build_prompt` (lines 53–116), with the JSON
parsing of `_parse_bundle` as an explicit parameter. -/
def build_prompt (parseBundle : String → List Segment)
    (promptBundle triggerWords positiveOverride negativeOverride : String) :
    String × String × String :=
  let segments := parseBundle promptBundle
  let vars := buildVariableContext triggerWords segments
  let parts := segmentParts vars segments
  let positive :=
    if pyStrip positiveOverride ≠ "" then pyStrip positiveOverride
    else pyJoin ", " parts.1
  let negative :=
    if pyStrip negativeOverride ≠ "" then pyStrip negativeOverride
    else pyJoin ", " parts.2
  let combined :=
    if negative ≠ "" then positive ++ "\nNegative: " ++ negative else positive
  (positive, negative, combined)

/-- `NdSuperPromptBuilderAdvanced.build_prompt` (lines 203–229): delegate
to the base implementation, return its triple plus the seed (the wildcard
processing is commented out in the source; `enable_wildcards` is unused). -/
def build_prompt_advanced (parseBundle : String → List Segment)
    (promptBundle triggerWords positiveOverride negativeOverride : String)
    (seed : Int) ( enableWildcards : Bool) : String × String × String × Int :=
  let r := build_prompt parseBundle promptBundle triggerWords
    positiveOverride negativeOverride
  (r.1, r.2.1, r.2.2, seed)

/-- The text one segment contributes to its side of the prompt, per spec
§4.6: nothing when disabled or blank after trimming; otherwise the
variable-substituted text, wrapped as `"(text:weight)"` with two-decimal
weight when the weight is not 1.0. -/
def segContribution (vars : List (String × String)) (seg : Segment) :
    Option String :=
  if ¬ seg.enabled then Option.none
  else
    let t := pyStrip seg.text
    if t = "" then Option.none
    else
      let s := substituteVariables vars t
      some (if seg.weight ≠ 1 then "(" ++ s ++ ":" ++ formatF2 seg.weight ++ ")" else s)

/-- The segment used by the spec's weighted-output example. -/
def c8Seg : Segment :=
  { text := "\x7b\x7btrigger.1\x7d\x7d, masterpiece", weight := mkRat 4 5 }

/-! ## Concrete instances used to evaluate the loop -/

/-- A concrete host over unit handles, for evaluating the loop on closed
inputs. -/
def unitHost : LoraHost Unit Unit :=
  { loadLora := fun _ _ _ _ _ => ((), some ())
    getLoraByFilename := fun v =>
      match v with
      | .str s => if s = "None" ∨ s = "" then Option.none else some ("/loras/" ++ s)
      | _ => Option.none
    extractTriggerWords := fun _ => []
    civitai := Option.none }

/-- A structured config with an explicit trigger phrase. -/
def c2Cfg : Config := [("lora", .str "a.safetensors"), ("triggerWords", .str "boom")]

/-- A structured config whose strength cannot be coerced to floating point. -/
def c3BadCfg : Config := [("lora", .str "good.safetensors"), ("strength", .str "abc")]

/-- A well-formed structured config. -/
def c3GoodCfg : Config := [("lora", .str "other.safetensors"), ("triggerWords", .str "ok")]

/-- A disabled (inert) structured config. -/
def c5Cfg : Config := [("lora", .str "x.safetensors"), ("enabled", .bool false)]

/-! ## `lora_utils.extract_trigger_words` (lines 86–204)

Trigger-word extraction from safetensors metadata.  The metadata returned
by `safe_open(...).metadata()` is a string-to-string dict; reading it and
`json.loads` are explicit parameters (`Option.none` models an exception).
Parsed JSON values are a mutual inductive (so that all recursions over
them are structural). -/

mutual
/-- A parsed JSON value (`json.loads` result). -/
inductive JVal where
  | null
  | bool (b : Bool)
  | num (q : Rat)
  | str (s : String)
  | arr (xs : JList)
  | obj (kvs : JObj)
/-- A JSON array. -/
inductive JList where
  | nil
  | cons (x : JVal) (rest : JList)
/-- A JSON object (insertion-ordered). -/
inductive JObj where
  | nil
  | cons (k : String) (v : JVal) (rest : JObj)
end

/-- A JSON array as a Lean list. -/
def JList.toList : JList → List JVal
  | .nil => []
  | .cons x rest => x :: rest.toList

/-- Python `str(x)` on a parsed JSON value (container rendering
approximated; never exercised by the claims). -/
def jstr : JVal → String
  | .null => "None"
  | .bool b => if b then "True" else "False"
  | .num q => toString q
  | .str s => s
  | .arr _ => "[…]"
  | .obj _ => "\x7b…\x7d"

/-- `flat[k] = flat.get(k, 0) + v` (line 130): add to the entry in place
when the phrase is already present, else append it (first-seen order). -/
def addCount (flat : List (String × Rat)) (k : String) (v : Rat) :
    List (String × Rat) :=
  match flat with
  | [] => [(k, v)]
  | (k', c) :: rest =>
    if k' = k then (k', c + v) :: rest else (k', c) :: addCount rest k v

mutual
/-- `add_counts` (lines 126–135): recursively flatten a parsed frequency
map, summing counts for duplicate phrases.  A Python `bool` passes the
`isinstance(v, (int, float))` test and counts as 1 or 0. -/
def addCounts (flat : List (String × Rat)) : JVal → List (String × Rat)
  | .obj kvs => addCountsObj flat kvs
  | .arr xs => addCountsArr flat xs
  | _ => flat
/-- `add_counts` over the items of a JSON object. -/
def addCountsObj (flat : List (String × Rat)) : JObj → List (String × Rat)
  | .nil => flat
  | .cons k v rest =>
    let flat' :=
      match v with
      | .num q => addCount flat k q
      | .bool b => addCount flat k (if b then 1 else 0)
      | other => addCounts flat other
    addCountsObj flat' rest
/-- `add_counts` over the elements of a JSON array. -/
def addCountsArr (flat : List (String × Rat)) : JList → List (String × Rat)
  | .nil => flat
  | .cons x rest => addCountsArr (addCounts flat x) rest
end

/-- Insert a tagged count into a count-descending list, after the entries
with a greater-or-equal count (stable insertion). -/
def insertTagDesc (x : String × Rat) : List (String × Rat) → List (String × Rat)
  | [] => [x]
  | y :: ys => if y.2 ≤ x.2 then x :: y :: ys else y :: insertTagDesc x ys

/-- Python `sorted(flat.items(), key=lambda kv: kv[1], reverse=True)`
(line 138): a stable sort, descending by count.  A stable sort by a fixed
key order is unique as a function, so this insertion sort computes exactly
Python's result. -/
def sortTagsDesc : List (String × Rat) → List (String × Rat)
  | [] => []
  | x :: xs => insertTagDesc x (sortTagsDesc xs)

/-- The collection loop of lines 139–144: stripped non-empty tags in
sorted order, stopping once `max_words` have been collected. -/
def collectTags (maxWords : Nat) : List (String × Rat) → List String → List String
  | [], acc => acc
  | (tag, _) :: rest, acc =>
    let t := pyStrip tag
    if t ≠ "" then
      let acc' := acc ++ [t]
      if maxWords ≤ acc'.length then acc' else collectTags maxWords rest acc'
    else collectTags maxWords rest acc

/-- Lines 125–144 applied to a parsed `ss_tag_frequency` value: flatten,
then sort and collect (the `if flat:` guard of line 137). -/
def tagFreqWords (parsed : JVal) (maxWords : Nat) : List String :=
  let flat := addCounts [] parsed
  if flat = [] then [] else collectTags maxWords (sortTagsDesc flat) []

/-- The safetensors metadata map (string-to-string). -/
abbrev Meta := List (String × String)

/-- Source 1 (lines 119–146): the `ss_tag_frequency` JSON frequency map;
a missing key or a JSON parse error yields nothing. -/
def stage1 (jparse : String → Option JVal) (maxWords : Nat) (metadata : Meta) :
    List String :=
  match metadata.lookup "ss_tag_frequency" with
  | some s =>
    match jparse s with
    | some parsed => tagFreqWords parsed maxWords
    | Option.none => []
  | Option.none => []

/-- `[str(x).strip() for x in maybe if str(x).strip()]` (line 157). -/
def jlistStrings (xs : JList) : List String :=
  (xs.toList.map fun x => pyStrip (jstr x)).filter (· ≠ "")

/-- Python `s.replace("\n", " ")`. -/
def replaceNl (s : String) : String :=
  ⟨s.data.map fun c => if c = '\n' then ' ' else c⟩

/-- The fallback splitting of lines 164–166: replace newlines, split on
commas and strip, split the tokens on whitespace, drop empties. -/
def commaWsSplit (s : String) : List String :=
  let tokens := (pySplitChar ',' (replaceNl s)).map pyStrip
  let tokens := tokens.flatMap pySplitWs
  tokens.filter (· ≠ "")

/-- Source 2 (lines 148–171): the `ss_trained_words` value, as a JSON list
when it parses to a non-empty one, else comma/whitespace splitting.  The
metadata values are strings, so the `isinstance(trained, list)` branch of
line 169 is unreachable and not modelled. -/
def stage2 (jparse : String → Option JVal) (maxWords : Nat) (metadata : Meta) :
    List String :=
  match metadata.lookup "ss_trained_words" with
  | some s =>
    let parsedList : Option (List String) :=
      match jparse s with
      | some (.arr xs) => some (jlistStrings xs)
      | _ => Option.none
    match parsedList with
    | some (w :: ws) => (w :: ws).take maxWords
    | _ => (commaWsSplit s).take maxWords
  | Option.none => []

/-- Contiguous-sublist test on character lists. -/
def isInfixChars (needle : List Char) : List Char → Bool
  | [] => needle.isEmpty
  | c :: rest => needle.isPrefixOf (c :: rest) || isInfixChars needle rest

/-- Python `sub in s` on strings. -/
def containsSub (s sub : String) : Bool := isInfixChars sub.data s.data

/-- The comma splitting of the `except` branch of lines 185–188 (strip
each token, keep non-empty ones; no whitespace re-splitting here). -/
def commaTokens (s : String) : List String :=
  ((pySplitChar ',' (replaceNl s)).map pyStrip).filter (· ≠ "")

/-- Source 3 (lines 174–192): scan every metadata key whose lowercased
name contains "trainedwords" or "trigger", appending that value's JSON
list elements (stripped, non-empty), or a parsed JSON string (stripped,
even when empty), or on a parse error its comma tokens; stop as soon as
`max_words` words have been collected (checked after every key). -/
def stage3 (jparse : String → Option JVal) (maxWords : Nat) :
    Meta → List String → List String
  | [], words => words
  | (key, val) :: rest, words =>
    let lk := pyLower key
    let words' :=
      if containsSub lk "trainedwords" ∨ containsSub lk "trigger" then
        match jparse val with
        | some (.arr xs) => words ++ jlistStrings xs
        | some (.str s) => words ++ [pyStrip s]
        | some _ => words
        | Option.none => words ++ commaTokens val
      else words
    if maxWords ≤ words'.length then words'
    else stage3 jparse maxWords rest words'

/-- The final deduplicate-and-clamp loop of lines 195–200. -/
def dedupClamp (maxWords : Nat) : List String → List String → List String
  | [], out => out
  | w :: ws, out =>
    if w ≠ "" ∧ ¬ out.contains w then
      let out' := out ++ [w]
      if maxWords ≤ out'.length then out' else dedupClamp maxWords ws out'
    else dedupClamp maxWords ws out

/-- The source pipeline of lines 117–201 after the metadata has been
obtained: try the three sources in order (each used only when the previous
ones produced nothing), then deduplicate and clamp. -/
def wordsPipeline (jparse : String → Option JVal) (maxWords : Nat)
    (metadata : Meta) : List String :=
  let words1 := stage1 jparse maxWords metadata
  let words2 := if words1 = [] then stage2 jparse maxWords metadata else words1
  let words3 :=
    if words2 = [] ∧ metadata ≠ [] then stage3 jparse maxWords metadata []
    else words2
  dedupClamp maxWords words3 []

/-- `lora_utils.extract_trigger_words`, top level: resolve, check
existence (line 100), read the metadata, and run the source pipeline. -/
def extract_trigger_words (env : FsEnv) (readMeta : String → Option Meta)
    (jparse : String → Option JVal) (loraIdentifier : String)
    (maxWords : Nat) : List String :=
  match resolve_lora_full_path env loraIdentifier with
  | Option.none => []
  | some fullPath =>
    if fullPath = "" ∨ ¬ env.pathExists fullPath then []
    else wordsPipeline jparse maxWords ((readMeta fullPath).getD [])

/-- The frequency map of the spec's literal example. -/
def c6Parsed : JVal :=
  .obj (.cons "cat" (.num 5) (.cons "dog" (.num 5) (.cons "bird" (.num 1) .nil)))

/-- Environment with a single search root containing one artifact. -/
def c6Env : FsEnv :=
  { comfyAvailable := true, loraDirs := ["/loras"], filenameList := []
    pathExists := fun p => p = "/loras/x.safetensors" }

/-! ## `prompt_manager.PromptManager.rename_template` (lines 278-284) -/

/-- A stored template record (a JSON object, scalar model of its values). -/
abbrev Tmpl := List (String × PyVal)

/-- Python `dict.pop k`: drop the entry with the given key. -/
def removeKey {α : Type} (d : List (String × α)) (k : String) : List (String × α) :=
  match d with
  | [] => []
  | kv :: rest => if kv.1 = k then rest else kv :: removeKey rest k

/-- `PromptManager.rename_template` (lines 278–284) on the in-memory
template dict: when `old_name` is present and `new_name` is not, pop the
old record, re-insert it under `new_name`, set its `name` field and return
the result of persisting (`saveOk` models the boolean `_save_json`
returns); otherwise return `False` with the store unchanged. -/
def rename_template (saveOk : Bool) (templates : List (String × Tmpl))
    (oldName newName : String) : Bool × List (String × Tmpl) :=
  match templates.lookup oldName, templates.lookup newName with
  | some r, Option.none =>
    (saveOk,
     removeKey templates oldName ++ [(newName, dictSet r "name" (PyVal.str newName))])
  | _, _ => (false, templates)

/-- Template store used to evaluate `rename_template`. -/
def ts10 : List (String × Tmpl) :=
  [("a", [("name", PyVal.str "a")]), ("b", [("name", PyVal.str "b")])]

/-- A host whose catalogue lookup never finds the file. -/
def missHost : LoraHost Unit Unit :=
  { loadLora := fun _ _ _ _ _ => ((), some ())
    getLoraByFilename := fun _ => Option.none
    extractTriggerWords := fun _ => []
    civitai := Option.none }

/-- An active config with a non-blank explicit phrase whose identifier
does not resolve. -/
def c2MissCfg : Config :=
  [("lora", PyVal.str "missing.safetensors"), ("triggerWords", PyVal.str "boom")]

/-! ## Theorems -/

/-- C1 (code bug): identifier resolution does *not* follow the spec's
search algorithm.  In the scenario of the repository's own test
`test_resolve_uses_extra_directory` — two search roots, the file present
only under the second — the source's `_resolve_lora_full_path` returns
`None` because it joins the identifier with `lora_dirs[0]` only, while the
spec's algorithm (join with each root in order, first existing hit wins)
resolves the identifier to the path under the second root. -/
theorem c1_resolve_ignores_later_roots :
    resolve_lora_full_path c1Env "Qwen/anime/MysticAnime.safetensors" =
      Option.none ∧
    spec_resolve c1Env "Qwen/anime/MysticAnime.safetensors" =
      some "/extra/Qwen/anime/MysticAnime.safetensors" := by
  exact ⟨by decide, by decide⟩

lemma applyConfig_model_triggers {M C : Type} (host : LoraHost M C)
    (st : LoadState M C) (c : Config) (s : Rat × Rat)
    (hc : coerceStrengths c = some s) (hm : st.model.isSome) :
    (applyConfig host st c s.1 s.2).model.isSome ∧
    (applyConfig host st c s.1 s.2).triggerWords =
      st.triggerWords ++ (entryPhrase host c).toList := by
  obtain ⟨m, hmm⟩ := Option.isSome_iff_exists.mp hm
  simp only [applyConfig, entryPhrase, hc, hmm]
  split
  · simp [hm]
  · split
    · simp [hm]
    · cases hg : host.getLoraByFilename (loraNameOf c) with
      | none => simp [hm, hg]
      | some p =>
        simp only [hg]
        split
        · simp [hm]
        · split <;> simp_all

lemma runConfigs_ok {M C : Type} (host : LoraHost M C) (configs : List Config) :
    ∀ st : LoadState M C, st.model.isSome →
    (∀ c ∈ configs, (coerceStrengths c).isSome) →
    ∃ st', runConfigs host st configs = Except.ok st' ∧ st'.model.isSome ∧
      st'.triggerWords = st.triggerWords ++ configs.filterMap (entryPhrase host) := by
  induction configs with
  | nil => exact fun st hm _ => ⟨st, rfl, hm, by simp⟩
  | cons c rest ih =>
    intro st hm hall
    obtain ⟨s, hc⟩ := Option.isSome_iff_exists.mp (hall c (by simp))
    have h1 := applyConfig_model_triggers host st c s hc hm
    obtain ⟨st', h2, h3, h4⟩ := ih (applyConfig host st c s.1 s.2) h1.1
      (fun c' hc' => hall c' (by simp [hc']))
    refine ⟨st', ?_, h3, ?_⟩
    · simp [runConfigs, hc, h2]
    · rw [h4, h1.2, List.filterMap_cons]
      cases hep : entryPhrase host c <;> simp [hep]

/-- C2 (amended): on a batch whose strengths all coerce and with a model
handle present, the combined trigger output of `load_loras` is the
comma-join, in entry order, of each entry's phrase under the spec §4.5
fallback chain given a successful catalogue resolution (`entryPhrase`;
an entry that fails to resolve contributes nothing, even with an explicit
phrase): a non-blank explicit phrase is used without consulting the
metadata or remote services (the result is unchanged under any replacement
of those two host functions) and is the phrase emitted; when the explicit
phrase is blank, the first metadata candidate wins over the remote
lookup. -/
theorem c2_explicit_phrase_precedence {M C : Type} (host : LoraHost M C) (m : M)
    (clip : Option C) (configs : List Config)
    (hall : ∀ c ∈ configs, (coerceStrengths c).isSome) :
    (∃ m' c', load_loras host (some m) clip configs =
        Except.ok (some m', c',
          if configs.filterMap (entryPhrase host) ≠ [] then
            pyJoin ", " (configs.filterMap (entryPhrase host)) else "")) ∧
    (∀ c extract2 civ2, triggerWordOf c ≠ "" →
        entryPhrase { host with extractTriggerWords := extract2, civitai := civ2 } c =
        entryPhrase host c) ∧
    (∀ c s p, coerceStrengths c = some s →
        enabledOf c → loraNameOf c ≠ PyVal.str "None" → (loraNameOf c).truthy →
        s.1 ≠ 0 → host.getLoraByFilename (loraNameOf c) = some p → p ≠ "" →
        triggerWordOf c ≠ "" →
        entryPhrase host c = some (triggerWordOf c)) ∧
    (∀ c s p w ws, coerceStrengths c = some s →
        enabledOf c → loraNameOf c ≠ PyVal.str "None" → (loraNameOf c).truthy →
        s.1 ≠ 0 → host.getLoraByFilename (loraNameOf c) = some p → p ≠ "" →
        triggerWordOf c = "" → host.extractTriggerWords p = w :: ws →
        pyStrip w ≠ "" →
        entryPhrase host c = some (pyStrip w)) := by
  refine ⟨?_, ?_, ?_, ?_⟩
  · obtain ⟨st', h2, h3, h4⟩ := runConfigs_ok host configs
      { model := some m, clip := clip, triggerWords := [], applied := [] }
      (by simp) hall
    obtain ⟨m', hm'⟩ := Option.isSome_iff_exists.mp h3
    refine ⟨m', st'.clip, ?_⟩
    simp only [load_loras, h2, hm', h4, List.nil_append]
  · intro c extract2 civ2 h
    simp [entryPhrase, ensureTriggerWord, h]
  · intro c s p hc h1 h2 h3 h4 h5 h6 h7
    simp [entryPhrase, ensureTriggerWord, hc, h1, h2, h3, h4, h5, h6, h7]
  · intro c s p w ws hc h1 h2 h3 h4 h5 h6 h7 h8 h9
    simp [entryPhrase, ensureTriggerWord, hc, h1, h2, h3, h4, h5, h6, h7, h8, h9]


/-- C2 witness: a one-entry batch with explicit phrase "boom" produces the
combined output "boom". -/
theorem c2_witness :
    ∃ m' c', load_loras unitHost (some ()) (some ()) [c2Cfg] =
      Except.ok (some m', c', "boom") := by
  obtain ⟨⟨m', c', h⟩, -, -, -⟩ :=
    c2_explicit_phrase_precedence unitHost () (some ()) [c2Cfg] (by decide)
  refine ⟨m', c', ?_⟩
  rw [h]
  have he : ([c2Cfg].filterMap (entryPhrase unitHost)) = ["boom"] := by decide
  rw [he]
  rfl

/-- C3 (amended): an entry whose strength value cannot be coerced to
floating point makes the whole `load_loras` call raise — the `float`
coercion sits outside the per-entry `try` block, so the batch aborts. -/
theorem c3x {M C : Type} (host : LoraHost M C) (model : Option M) (clip : Option C)
    (configs : List Config) (c : Config) (hmem : c ∈ configs)
    (hbad : coerceStrengths c = Option.none) :
    load_loras host model clip configs = Except.error () := by
  suffices h : ∀ st, runConfigs host st configs = Except.error () by
    simp [load_loras, h]
  clear model clip
  induction configs with
  | nil => cases hmem
  | cons d rest ih =>
    intro st
    rcases List.mem_cons.mp hmem with h | h
    · subst h; simp [runConfigs, hbad]
    · cases hd : coerceStrengths d with
      | none => simp [runConfigs, hd]
      | some s => simp [runConfigs, hd]; exact ih h _

/-- C3 counterexample: with a bad-strength entry followed by a well-formed
one, the call raises (`Except.error`) instead of dropping the bad entry
and continuing — the well-formed batch alone succeeds. -/
theorem c3_counterexample :
    load_loras unitHost (some ()) (some ()) [c3BadCfg, c3GoodCfg] = Except.error () ∧
    load_loras unitHost (some ()) (some ()) [c3GoodCfg] =
      Except.ok (some (), some (), "ok") := by
  exact ⟨rfl, rfl⟩

/-- C3 witness: the amended claim evaluated at the two-entry batch. -/
theorem c3x_witness :
    load_loras unitHost (some ()) (some ()) [c3BadCfg, c3GoodCfg] = Except.error () :=
  c3x unitHost (some ()) (some ()) [c3BadCfg, c3GoodCfg] c3BadCfg (by simp) (by decide)

lemma applyConfig_inert {M C : Type} (host : LoraHost M C) (st : LoadState M C)
    (c : Config) (sm sc : Rat)
    (hinert : ¬ enabledOf c ∨ loraNameOf c = PyVal.str "None" ∨
      ¬ (loraNameOf c).truthy ∨ sm = 0) :
    applyConfig host st c sm sc = st := by
  unfold applyConfig
  rcases hinert with h | h | h | h
  · simp [h]
  · simp [h]
  · simp [h]
  · subst h
    simp [applyConfig]

/-- C5: an inert entry (disabled, blank or sentinel identifier, or zero
primary strength) leaves the loop state — including the weight-application
trace and the collected trigger words — unchanged, and removing it from
any batch leaves the output of `load_loras` unchanged. -/
theorem c5_inert {M C : Type} (host : LoraHost M C) (model : Option M)
    (clip : Option C) (pre post : List Config) (c : Config) (s : Rat × Rat)
    (hc : coerceStrengths c = some s)
    (hinert : ¬ enabledOf c ∨ loraNameOf c = PyVal.str "None" ∨
      ¬ (loraNameOf c).truthy ∨ s.1 = 0) :
    (∀ st : LoadState M C, applyConfig host st c s.1 s.2 = st) ∧
    load_loras host model clip (pre ++ c :: post) =
      load_loras host model clip (pre ++ post) := by
  refine ⟨fun st => applyConfig_inert host st c s.1 s.2 hinert, ?_⟩
  suffices h : ∀ st, runConfigs host st (pre ++ c :: post) = runConfigs host st (pre ++ post) by
    simp [load_loras, h]
  induction pre with
  | nil =>
    intro st
    simp [runConfigs, hc, applyConfig_inert host st c s.1 s.2 hinert]
  | cons d rest ih =>
    intro st
    cases hd : coerceStrengths d with
    | none => simp [runConfigs, hd]
    | some t => simp [runConfigs, hd]; exact ih _

/-- C5 witness: a disabled entry is a no-op in a concrete batch. -/
theorem c5_witness :
    applyConfig unitHost ⟨some (), some (), [], []⟩ c5Cfg 1 1 = ⟨some (), some (), [], []⟩ ∧
    load_loras unitHost (some ()) (some ()) ([c3GoodCfg] ++ c5Cfg :: []) =
      load_loras unitHost (some ()) (some ()) ([c3GoodCfg] ++ []) := by
  obtain ⟨h1, h2⟩ := c5_inert unitHost (some ()) (some ()) [c3GoodCfg] [] c5Cfg (1, 1)
    (by decide) (by decide)
  exact ⟨h1 _, h2⟩

lemma passScanAux_id (vars : List (String × String)) (syn : BraceSyn) :
    ∀ fuel cs, (∀ n ∈ passNamesAux syn fuel cs, List.lookup n vars = Option.none) →
    passScanAux vars syn fuel cs = cs := by
  intro fuel
  induction fuel with
  | zero => intro cs _; rfl
  | succ fuel ih =>
    intro cs h
    match cs with
    | [] => rfl
    | c :: rest =>
      simp only [passScanAux, passNamesAux] at h ⊢
      cases hm : matchSyn syn (c :: rest) with
      | none =>
        simp only [hm] at h ⊢
        rw [ih rest h]
      | some nm =>
        simp only [hm] at h ⊢
        have h0 : List.lookup (⟨nm⟩ : String) vars = Option.none := h _ (by simp)
        rw [h0]
        rw [ih _ (fun n hn => h n (by simp [hn]))]
        exact List.take_append_drop _ _

/-- C4 (amended): substitution chains the three syntax passes, each
scanning the output of the previous one; when no matched name of any pass
over the original text is bound in the context, the text is returned
verbatim (in particular unknown variable names are left in place). -/
theorem c4x (vars : List (String × String)) (text : String) :
    (vars ≠ [] →
      substituteVariables vars text =
        ⟨passScan vars .single (passScan vars .dollar (passScan vars .double text.data))⟩) ∧
    ((∀ n ∈ passNames BraceSyn.double text.data, List.lookup n vars = Option.none) →
     (∀ n ∈ passNames BraceSyn.dollar text.data, List.lookup n vars = Option.none) →
     (∀ n ∈ passNames BraceSyn.single text.data, List.lookup n vars = Option.none) →
      substituteVariables vars text = text) := by
  constructor
  · intro hv
    simp [substituteVariables, hv]
  · intro h1 h2 h3
    by_cases hv : vars = []
    · simp [substituteVariables, hv]
    · simp only [substituteVariables, if_neg hv]
      simp only [passNames] at h1 h2 h3
      simp only [passScan]
      rw [passScanAux_id vars BraceSyn.double _ _ h1,
          passScanAux_id vars BraceSyn.dollar _ _ h2,
          passScanAux_id vars BraceSyn.single _ _ h3]

/-- C4 counterexample: the text `$\x7bb\x7d` inserted by the double-brace
replacement is re-scanned and replaced by the dollar-brace pass, so the
result is "X", not the inserted text — refuting "text inserted by a
replacement is never re-scanned or replaced by a later pass". -/
theorem c4_counterexample :
    substituteVariables [("a", "$\x7bb\x7d"), ("b", "X")] "\x7b\x7ba\x7d\x7d" = "X" ∧
    "X" ≠ "$\x7bb\x7d" := ⟨by decide, by decide⟩

/-- C4 witness: the spec's no-match idempotence test,
`substitute("a \x7bunknown\x7d b") = "a \x7bunknown\x7d b"`. -/
theorem c4x_witness :
    substituteVariables [("x", "y")] "a \x7bunknown\x7d b" = "a \x7bunknown\x7d b" := by
  have h := (c4x [("x", "y")] "a \x7bunknown\x7d b").2
  exact h (by decide) (by decide) (by decide)


lemma segStep_eq (vars : List (String × String)) (acc : List String × List String)
    (seg : Segment) :
    segStep vars acc seg =
      (acc.1 ++ (if seg.kind = "negative" then Option.none
                 else segContribution vars seg).toList,
       acc.2 ++ (if seg.kind = "negative" then segContribution vars seg
                 else Option.none).toList) := by
  by_cases he : seg.enabled
  · by_cases ht : pyStrip seg.text = ""
    · simp [segStep, segContribution, he, ht]
    · by_cases hk : seg.kind = "negative"
      · simp [segStep, segContribution, he, ht, hk]
      · simp [segStep, segContribution, he, ht, hk]
  · simp [segStep, segContribution, he]

lemma segmentParts_eq (vars : List (String × String)) (segs : List Segment) :
    segmentParts vars segs =
      (segs.filterMap fun s =>
        if s.kind = "negative" then Option.none else segContribution vars s,
       segs.filterMap fun s =>
        if s.kind = "negative" then segContribution vars s else Option.none) := by
  suffices h : ∀ acc : List String × List String,
      segs.foldl (segStep vars) acc =
      (acc.1 ++ (segs.filterMap fun s =>
          if s.kind = "negative" then Option.none else segContribution vars s),
       acc.2 ++ (segs.filterMap fun s =>
          if s.kind = "negative" then segContribution vars s else Option.none)) by
    simpa [segmentParts] using h ([], [])
  induction segs with
  | nil => intro acc; simp
  | cons seg rest ih =>
    intro acc
    rw [List.foldl_cons, ih, segStep_eq]
    simp only [List.filterMap_cons, Prod.mk.injEq]
    constructor
    · cases hp : (if seg.kind = "negative" then Option.none
        else segContribution vars seg) <;> simp [hp]
    · cases hn : (if seg.kind = "negative" then segContribution vars seg
        else Option.none) <;> simp [hn]


/-- C8: the compiled output of `build_prompt` is: per-side in-order
contributions of the enabled, non-blank segments (substituted, and wrapped
as `"(text:weight)"` with two-decimal weight when the weight is not 1)
joined with ", ", a non-blank override replacing its side's join entirely,
and `combined` equal to the positive string or
`"<positive>\nNegative: <negative>"` when the negative side is non-blank;
the spec's literal example compiles to exactly
`"(sksgirl, masterpiece:0.80)"`. -/
theorem c8_compiler (parseBundle : String → List Segment)
    (bundle tw po no : String) :
    (let segments := parseBundle bundle
     let vars := buildVariableContext tw segments
     let posList := segments.filterMap fun s =>
       if s.kind = "negative" then Option.none else segContribution vars s
     let negList := segments.filterMap fun s =>
       if s.kind = "negative" then segContribution vars s else Option.none
     let positive := if pyStrip po ≠ "" then pyStrip po else pyJoin ", " posList
     let negative := if pyStrip no ≠ "" then pyStrip no else pyJoin ", " negList
     build_prompt parseBundle bundle tw po no =
       (positive, negative,
        if negative ≠ "" then positive ++ "\nNegative: " ++ negative else positive)) ∧
    build_prompt (fun _ => [c8Seg]) "" "sksgirl" "" "" =
      ("(sksgirl, masterpiece:0.80)", "", "(sksgirl, masterpiece:0.80)") := by
  constructor
  · simp only [build_prompt, segmentParts_eq]
  · decide

/-- C9: the advanced builder returns exactly the base builder's triple on
the same first four inputs, plus the seed unchanged (for every seed and
`enable_wildcards` flag). -/
theorem c9_advanced_refines_base (parseBundle : String → List Segment)
    (bundle tw po no : String) (seed : Int) (ew : Bool) :
    build_prompt_advanced parseBundle bundle tw po no seed ew =
      ((build_prompt parseBundle bundle tw po no).1,
       (build_prompt parseBundle bundle tw po no).2.1,
       (build_prompt parseBundle bundle tw po no).2.2, seed) := rfl

lemma lookup_append_fst {α : Type} (l1 l2 : List (String × α)) (k : String) :
    (l1 ++ l2).lookup k =
      match l1.lookup k with
      | some v => some v
      | Option.none => l2.lookup k := by
  induction l1 with
  | nil => simp
  | cons kv rest ih =>
    simp only [List.cons_append, List.lookup]
    cases k == kv.1
    · exact ih
    · rfl

lemma lookup_none_of_not_mem {α : Type} (d : List (String × α)) (k : String)
    (h : k ∉ d.map Prod.fst) : d.lookup k = Option.none := by
  induction d with
  | nil => rfl
  | cons kv rest ih =>
    simp only [List.map_cons, List.mem_cons, not_or] at h
    simp only [List.lookup]
    cases hbe : k == kv.1
    · exact ih h.2
    · exact absurd (by simpa using hbe) h.1

lemma lookup_removeKey_self {α : Type} (d : List (String × α)) (k : String)
    (hnd : (d.map Prod.fst).Nodup) : (removeKey d k).lookup k = Option.none := by
  induction d with
  | nil => rfl
  | cons kv rest ih =>
    simp only [List.map_cons, List.nodup_cons] at hnd
    by_cases h : kv.1 = k
    · subst h
      simp only [removeKey, if_pos rfl]
      exact lookup_none_of_not_mem rest kv.1 hnd.1
    · simp only [removeKey, if_neg h, List.lookup]
      cases hbe : k == kv.1
      · exact ih hnd.2
      · exact absurd ((by simpa using hbe : k = kv.1)).symm h

lemma lookup_removeKey_ne {α : Type} (d : List (String × α)) (k k' : String)
    (h : k' ≠ k) : (removeKey d k).lookup k' = d.lookup k' := by
  induction d with
  | nil => rfl
  | cons kv rest ih =>
    by_cases hk : kv.1 = k
    · subst hk
      simp only [removeKey, if_pos rfl, List.lookup]
      cases hbe : k' == kv.1
      · rfl
      · exact absurd (by simpa using hbe) h
    · simp only [removeKey, if_neg hk, List.lookup]
      cases k' == kv.1
      · exact ih
      · rfl

/-- C10: `rename_template` returns `False` and leaves the store unchanged
whenever the old name is absent or the new name is already present (never
overwriting an existing template); otherwise the old key is removed, the
new key maps to the old record with its `name` field set to the new name,
and every other template is unchanged. -/
theorem c10_rename_no_overwrite (saveOk : Bool) (ts : List (String × Tmpl))
    (oldName newName : String) (hnd : (ts.map Prod.fst).Nodup) :
    ((ts.lookup oldName = Option.none ∨ (ts.lookup newName).isSome) →
      rename_template saveOk ts oldName newName = (false, ts)) ∧
    (∀ r, ts.lookup oldName = some r → ts.lookup newName = Option.none →
      ((rename_template saveOk ts oldName newName).2.lookup newName =
         some (dictSet r "name" (PyVal.str newName)) ∧
       (rename_template saveOk ts oldName newName).2.lookup oldName = Option.none ∧
       ∀ k, k ≠ oldName → k ≠ newName →
         (rename_template saveOk ts oldName newName).2.lookup k = ts.lookup k)) := by
  constructor
  · intro h
    rcases h with h | h
    · simp [rename_template, h]
    · obtain ⟨v, hv⟩ := Option.isSome_iff_exists.mp h
      cases ho : ts.lookup oldName <;> simp [rename_template, ho, hv]
  · intro r ho hn
    have hne : newName ≠ oldName := by
      intro e; rw [e, ho] at hn; cases hn
    have h2 : (rename_template saveOk ts oldName newName).2 =
        removeKey ts oldName ++ [(newName, dictSet r "name" (PyVal.str newName))] := by
      simp [rename_template, ho, hn]
    refine ⟨?_, ?_, ?_⟩
    · rw [h2, lookup_append_fst, lookup_removeKey_ne ts oldName newName hne, hn]
      simp [List.lookup]
    · rw [h2, lookup_append_fst, lookup_removeKey_self ts oldName hnd]
      have hb : (oldName == newName) = false := by
        simpa using fun e => hne e.symm
      simp [List.lookup, hb]
    · intro k hko hkn
      rw [h2, lookup_append_fst, lookup_removeKey_ne ts oldName k hko]
      have hb : (k == newName) = false := by simpa using hkn
      cases hk : ts.lookup k
      · simp [List.lookup, hb]
      · simp

/-- C10 witness: renaming onto an existing name fails and leaves the
two-template store unchanged; a valid rename re-keys the record with its
`name` field updated. -/
theorem c10_witness :
    rename_template true ts10 "x" "b" = (false, ts10) ∧
    (rename_template true ts10 "a" "c").2.lookup "c" =
      some [("name", PyVal.str "c")] := by
  have h1 := (c10_rename_no_overwrite true ts10 "x" "b" (by decide)).1
  have h2 := (c10_rename_no_overwrite true ts10 "a" "c" (by decide)).2
    [("name", PyVal.str "a")] (by decide) (by decide)
  exact ⟨h1 (Or.inl (by decide)), h2.1.trans (by decide)⟩

lemma insertTagDesc_perm (x : String × Rat) (l : List (String × Rat)) :
    List.Perm (insertTagDesc x l) (x :: l) := by
  induction l with
  | nil => simp [insertTagDesc]
  | cons y ys ih =>
    simp only [insertTagDesc]
    split
    · exact List.Perm.refl _
    · exact (ih.cons y).trans (List.Perm.swap x y ys)

lemma sortTagsDesc_perm (l : List (String × Rat)) :
    List.Perm (sortTagsDesc l) l := by
  induction l with
  | nil => exact List.Perm.refl _
  | cons x xs ih =>
    exact (insertTagDesc_perm x (sortTagsDesc xs)).trans (ih.cons x)

lemma insertTagDesc_sorted (x : String × Rat) (l : List (String × Rat))
    (h : l.Sorted fun a b => b.2 ≤ a.2) :
    (insertTagDesc x l).Sorted fun a b => b.2 ≤ a.2 := by
  induction l with
  | nil => simp [insertTagDesc]
  | cons y ys ih =>
    rw [List.sorted_cons] at h
    simp only [insertTagDesc]
    split
    · rename_i hc
      rw [List.sorted_cons]
      refine ⟨?_, List.sorted_cons.mpr h⟩
      intro b hb
      rcases List.mem_cons.mp hb with hb | hb
      · subst hb; exact hc
      · exact le_trans (h.1 b hb) hc
    · rename_i hc
      rw [List.sorted_cons]
      refine ⟨?_, ih h.2⟩
      intro b hb
      rcases List.mem_cons.mp ((insertTagDesc_perm x ys).mem_iff.mp hb) with hb | hb
      · subst hb; exact le_of_lt (lt_of_not_le hc)
      · exact h.1 b hb

lemma sortTagsDesc_sorted (l : List (String × Rat)) :
    (sortTagsDesc l).Sorted fun a b => b.2 ≤ a.2 := by
  induction l with
  | nil => simp [sortTagsDesc]
  | cons x xs ih => exact insertTagDesc_sorted x (sortTagsDesc xs) ih

lemma filter_insertTagDesc_eq (x : String × Rat) (l : List (String × Rat))
    (c : Rat) (hx : x.2 = c) :
    (insertTagDesc x l).filter (fun p => p.2 = c) =
      x :: l.filter (fun p => p.2 = c) := by
  induction l with
  | nil => simp [insertTagDesc, hx]
  | cons y ys ih =>
    simp only [insertTagDesc]
    split
    · simp [List.filter, hx]
    · rename_i hc
      have hy : ¬ y.2 = c := by
        intro e
        exact hc (by rw [e, ← hx])
      simp only [List.filter_cons]
      rw [if_neg (by simpa using hy), if_neg (by simpa using hy)]
      exact ih

lemma filter_insertTagDesc_ne (x : String × Rat) (l : List (String × Rat))
    (c : Rat) (hx : ¬ x.2 = c) :
    (insertTagDesc x l).filter (fun p => p.2 = c) =
      l.filter (fun p => p.2 = c) := by
  induction l with
  | nil => simp [insertTagDesc, hx]
  | cons y ys ih =>
    simp only [insertTagDesc]
    split
    · simp only [List.filter_cons]
      rw [if_neg (by simpa using hx)]
    · simp only [List.filter_cons]
      by_cases hy : y.2 = c
      · rw [if_pos (by simpa using hy), if_pos (by simpa using hy), ih]
      · rw [if_neg (by simpa using hy), if_neg (by simpa using hy), ih]

lemma sortTagsDesc_filter (l : List (String × Rat)) (c : Rat) :
    (sortTagsDesc l).filter (fun p => p.2 = c) =
      l.filter (fun p => p.2 = c) := by
  induction l with
  | nil => rfl
  | cons x xs ih =>
    simp only [sortTagsDesc]
    by_cases hx : x.2 = c
    · rw [filter_insertTagDesc_eq x _ c hx, ih]
      simp only [List.filter_cons]
      rw [if_pos (by simpa using hx)]
    · rw [filter_insertTagDesc_ne x _ c hx, ih]
      simp only [List.filter_cons]
      rw [if_neg (by simpa using hx)]

/-- C6: the frequency-map source flattens the parsed map recursively
summing duplicate counts (`addCounts`), and emits phrases in the order of
a stable count-descending sort: the sorted list is a permutation of the
flattened one, its counts are non-increasing, and the entries of any one
count keep their first-seen (flattening) order; on the spec's literal
example the result is exactly `["cat", "dog"]`, both for the frequency
branch alone and through the whole extraction. -/
theorem c6_freq_map_order :
    (∀ parsed : JVal,
      List.Perm (sortTagsDesc (addCounts [] parsed)) (addCounts [] parsed) ∧
      (sortTagsDesc (addCounts [] parsed)).Sorted (fun a b => b.2 ≤ a.2) ∧
      (∀ c : Rat,
        (sortTagsDesc (addCounts [] parsed)).filter (fun p => p.2 = c) =
          (addCounts [] parsed).filter (fun p => p.2 = c))) ∧
    tagFreqWords c6Parsed 2 = ["cat", "dog"] ∧
    extract_trigger_words c6Env (fun _ => some [("ss_tag_frequency", "FREQ")])
      (fun s => if s = "FREQ" then some c6Parsed else Option.none)
      "x.safetensors" 2 = ["cat", "dog"] := by
  exact ⟨fun parsed => ⟨sortTagsDesc_perm _, sortTagsDesc_sorted _,
    fun c => sortTagsDesc_filter _ c⟩, by decide, by decide⟩


lemma wordsPipeline_nil (jparse : String → Option JVal) (maxW : Nat) :
    wordsPipeline jparse maxW [] = [] := by
  simp [wordsPipeline, stage1, stage2, dedupClamp, List.lookup]

lemma wordsPipeline_freq_parse_error (jparse : String → Option JVal)
    (maxW : Nat) (s : String) (rest : Meta)
    (hj : jparse s = Option.none)
    (hrest : rest.lookup "ss_tag_frequency" = Option.none)
    (hmw : 1 ≤ maxW) :
    wordsPipeline jparse maxW (("ss_tag_frequency", s) :: rest) =
      wordsPipeline jparse maxW rest := by
  have hs1 : stage1 jparse maxW (("ss_tag_frequency", s) :: rest) =
      stage1 jparse maxW rest := by
    simp [stage1, List.lookup, hj, hrest]
  have hs2 : stage2 jparse maxW (("ss_tag_frequency", s) :: rest) =
      stage2 jparse maxW rest := by
    simp [stage2, List.lookup]
  have hs3 : stage3 jparse maxW (("ss_tag_frequency", s) :: rest) [] =
      stage3 jparse maxW rest [] := by
    have hcond : ¬(containsSub (pyLower "ss_tag_frequency") "trainedwords" = true ∨
        containsSub (pyLower "ss_tag_frequency") "trigger" = true) := by decide
    simp only [stage3]
    rw [if_neg hcond]
    simp only [List.length_nil]
    rw [if_neg (by omega)]
  simp only [wordsPipeline, hs1, hs2]
  set w2 := if stage1 jparse maxW rest = [] then stage2 jparse maxW rest
    else stage1 jparse maxW rest with hw2
  by_cases hw : w2 = []
  · rw [hw]
    by_cases hr : rest = []
    · subst hr
      rw [if_pos ⟨rfl, by simp⟩, if_neg (fun hAB => hAB.2 rfl), hs3]
      rfl
    · rw [if_pos ⟨rfl, by simp⟩, if_pos ⟨rfl, hr⟩, hs3]
  · rw [if_neg (fun hAB => hw hAB.1), if_neg (fun hAB => hw hAB.1)]


/-- C7: extraction failure semantics: a failed or empty resolution, a
missing file, and unreadable or empty metadata all yield the empty list;
a JSON parse error on the frequency-map field is swallowed and behaves
exactly as if that field were absent (the next sources are still tried). -/
theorem c7_extract_never_raises :
    (∀ (env : FsEnv) (readMeta : String → Option Meta)
        (jparse : String → Option JVal) (ident : String) (maxW : Nat),
      resolve_lora_full_path env ident = Option.none →
      extract_trigger_words env readMeta jparse ident maxW = []) ∧
    (∀ (env : FsEnv) (readMeta : String → Option Meta)
        (jparse : String → Option JVal) (ident : String) (maxW : Nat)
        (p : String),
      resolve_lora_full_path env ident = some p →
      (p = "" ∨ env.pathExists p = false) →
      extract_trigger_words env readMeta jparse ident maxW = []) ∧
    (∀ (env : FsEnv) (readMeta : String → Option Meta)
        (jparse : String → Option JVal) (ident : String) (maxW : Nat)
        (p : String),
      resolve_lora_full_path env ident = some p →
      (readMeta p = Option.none ∨ readMeta p = some []) →
      extract_trigger_words env readMeta jparse ident maxW = []) ∧
    (∀ (env : FsEnv) (rm1 rm2 : String → Option Meta)
        (jparse : String → Option JVal) (ident : String) (maxW : Nat)
        (p s : String) (rest : Meta),
      resolve_lora_full_path env ident = some p →
      rm1 p = some (("ss_tag_frequency", s) :: rest) →
      rm2 p = some rest →
      jparse s = Option.none →
      rest.lookup "ss_tag_frequency" = Option.none →
      1 ≤ maxW →
      extract_trigger_words env rm1 jparse ident maxW =
        extract_trigger_words env rm2 jparse ident maxW) := by
  refine ⟨?_, ?_, ?_, ?_⟩
  · intro env readMeta jparse ident maxW h
    simp [extract_trigger_words, h]
  · intro env readMeta jparse ident maxW p h hp
    rcases hp with hp | hp <;>
      simp [extract_trigger_words, h, hp]
  · intro env readMeta jparse ident maxW p h hm
    simp only [extract_trigger_words, h]
    split
    · rfl
    · rcases hm with hm | hm <;>
        simp [hm, wordsPipeline_nil]
  · intro env rm1 rm2 jparse ident maxW p s rest h h1 h2 hj hrest hmw
    simp only [extract_trigger_words, h]
    split
    · rfl
    · rw [h1, h2]
      simp only [Option.getD_some]
      exact wordsPipeline_freq_parse_error jparse maxW s rest hj hrest hmw

/-- C7 witness: extraction of an unresolvable identifier returns `[]`. -/
theorem c7_witness :
    extract_trigger_words c6Env (fun _ => some []) (fun _ => Option.none)
      "missing.safetensors" 3 = [] := by
  have hres : resolve_lora_full_path c6Env "missing.safetensors" = Option.none := by
    decide
  exact c7_extract_never_raises.1 c6Env (fun _ => some []) (fun _ => Option.none)
    "missing.safetensors" 3 hres

/-- C2 counterexample: an active entry with the non-blank explicit phrase
"boom" whose identifier does not resolve through the catalogue contributes
nothing — the combined trigger output is `""`, so the explicit phrase is
not included, refuting the unconditional inclusion stated by the claim. -/
theorem c2_counterexample:
    enabledOf c2MissCfg = true ∧
    loraNameOf c2MissCfg = PyVal.str "missing.safetensors" ∧
    coerceStrengths c2MissCfg = some (1, 1) ∧
    triggerWordOf c2MissCfg = "boom" ∧
    load_loras missHost (some ()) (some ()) [c2MissCfg] =
      Except.ok (some (), some (), "") := by
  refine ⟨by decide, by decide, by decide, by decide, rfl⟩

end NdSuperNodes
